import Mathlib

/-!
Shallow embedding of the fastapi-blogApplication backend core:
the post lifecycle (submit / view / edit / delete / approve / reject),
the access policy, the SSE notification fan-out manager and the
per-post WebSocket chat manager, translated from

  app/models/{blog,user,comment}.py
  app/blogs/{service,routes,chat_manager,websocket}.py
  app/auth/rbac.py
  app/notifications/{manager,routes}.py

Database state is modelled as an explicit list of rows, timestamps as
naturals, and the in-memory registries (SSE mailboxes, chat rooms) as
association lists, mirroring the Python dicts including their
create-on-demand and prune-when-empty behaviour.
-/

namespace BlogApp

/-- `BlogStatus` enum from app/models/blog.py. -/
inductive BlogStatus where
  | pending
  | approved
  | rejected
deriving DecidableEq, Repr

/-- `UserRole` enum from app/models/user.py. -/
inductive UserRole where
  | user
  | admin
  | l1_approver
deriving DecidableEq, Repr

/-- `User` row from app/models/user.py (fields used by the core). -/
structure User where
  id : Nat
  username : String
  role : UserRole
  is_active : Bool
deriving DecidableEq, Repr

/-- `Blog` row from app/models/blog.py; `deleted_at = none` means not soft-deleted. -/
structure Blog where
  id : Nat
  title : String
  content : String
  images : Option (List String)
  status : BlogStatus
  author_id : Nat
  created_at : Nat
  updated_at : Nat
  deleted_at : Option Nat
deriving DecidableEq, Repr

/-- `Comment` row from app/models/comment.py (fields written by the websocket handler). -/
structure Comment where
  id : Nat
  content : String
  blog_id : Nat
  user_id : Nat
  created_at : Nat
deriving DecidableEq, Repr

/-- Error outcomes raised by the route layer (HTTPException status codes /
websocket policy-violation close). -/
inductive ApiError where
  | unauthorized
  | forbidden
  | notFound
  | badRequest
deriving DecidableEq, Repr

/-- `BlogCreate` payload from app/blogs/schemas.py. -/
structure BlogCreate where
  title : String
  content : String
  images : Option (List String)
deriving DecidableEq, Repr

/-- `BlogUpdate` payload from app/blogs/schemas.py: optional fields, only
the supplied ones are applied (`exclude_unset`). -/
structure BlogUpdate where
  title : Option String
  content : Option String
  images : Option (Option (List String))
deriving DecidableEq, Repr

/-! ## app/blogs/service.py -/

/-- The filter `Blog.status == APPROVED, Blog.deleted_at.is_(None)` used by
`list_approved_blogs`. -/
def isApprovedNotDeleted (b : Blog) : Bool :=
  b.status == BlogStatus.approved && b.deleted_at.isNone

/-- `ORDER BY created_at DESC`: row `a` precedes row `b` when
`b.created_at ≤ a.created_at`. -/
def createdDesc (a b : Blog) : Prop :=
  b.created_at ≤ a.created_at

instance : DecidableRel createdDesc := fun a b =>
  Nat.decLe b.created_at a.created_at

instance : IsTotal Blog createdDesc :=
  ⟨fun a b => Nat.le_total b.created_at a.created_at⟩

instance : IsTrans Blog createdDesc :=
  ⟨fun _ _ _ h1 h2 => Nat.le_trans h2 h1⟩

/-- `list_approved_blogs(db, limit, offset)`: approved, non-deleted rows
ordered by `created_at` descending, windowed by OFFSET then LIMIT, paired
with the un-windowed count. -/
def list_approved_blogs (db : List Blog) (limit offset : Nat) :
    List Blog × Nat :=
  let filtered := db.filter isApprovedNotDeleted
  let ordered := filtered.insertionSort createdDesc
  (((ordered.drop offset).take limit), filtered.length)

/-- `get_blog_by_id(db, blog_id)`: the row with this id, excluding
soft-deleted ones. -/
def get_blog_by_id (db : List Blog) (blog_id : Nat) : Option Blog :=
  db.find? (fun b => b.id == blog_id && b.deleted_at.isNone)

/-- `_can_view_blog(blog, user)` from app/blogs/service.py, translated
branch by branch. -/
def can_view_blog (blog : Blog) (user : Option User) : Bool :=
  if blog.status == BlogStatus.approved then
    true
  else
    match user with
    | none => false
    | some u =>
      if u.id == blog.author_id then
        true
      else if u.role == UserRole.admin || u.role == UserRole.l1_approver then
        true
      else
        false

/-- `get_blog_for_view(db, blog_id, current_user)`. -/
def get_blog_for_view (db : List Blog) (blog_id : Nat)
    (current_user : Option User) : Option Blog :=
  match get_blog_by_id db blog_id with
  | none => none
  | some blog =>
    if can_view_blog blog current_user then some blog else none

/-- `_can_edit_blog(blog, user)`. -/
def can_edit_blog (blog : Blog) (user : User) : Bool :=
  if user.role == UserRole.admin then
    true
  else if blog.author_id == user.id && blog.status != BlogStatus.approved then
    true
  else
    false

/-- `_can_delete_blog(blog, user)`. -/
def can_delete_blog (blog : Blog) (user : User) : Bool :=
  if user.role == UserRole.admin then
    true
  else if blog.author_id == user.id then
    true
  else
    false

/-- The field loop of `update_blog`: apply exactly the supplied fields of
the partial patch, then refresh `updated_at`. -/
def applyBlogUpdate (blog : Blog) (data : BlogUpdate) (now : Nat) : Blog :=
  let b1 := match data.title with
    | none => blog
    | some t => { blog with title := t }
  let b2 := match data.content with
    | none => b1
    | some c => { b1 with content := c }
  let b3 := match data.images with
    | none => b2
    | some imgs => { b2 with images := imgs }
  { b3 with updated_at := now }

/-- `approve_blog(db, blog, approver)`: set status APPROVED and refresh
`updated_at` (role enforcement lives at the route level). -/
def approve_blog (blog : Blog) (now : Nat) : Blog :=
  { blog with status := BlogStatus.approved, updated_at := now }

/-- `reject_blog(db, blog, approver)`: set status REJECTED and refresh
`updated_at`. -/
def reject_blog (blog : Blog) (now : Nat) : Blog :=
  { blog with status := BlogStatus.rejected, updated_at := now }

/-! ## app/auth/rbac.py -/

/-- `require_admin`: 403 unless the (already authenticated, active) user
has the ADMIN role. -/
def require_admin (u : User) : Except ApiError User :=
  if u.role == UserRole.admin then Except.ok u
  else Except.error ApiError.forbidden

/-- `require_approver`: 403 unless the user role is ADMIN or L1_APPROVER. -/
def require_approver (u : User) : Except ApiError User :=
  if u.role == UserRole.admin || u.role == UserRole.l1_approver then
    Except.ok u
  else Except.error ApiError.forbidden

/-! ## app/blogs/routes.py — endpoints over an explicit blog table -/

/-- The blog table plus the id sequence of the primary-key column. -/
structure AppState where
  blogs : List Blog
  nextBlogId : Nat
deriving Repr

/-- Session flush of a mutated row: replace the row carrying this id. -/
def putBlog (blogs : List Blog) (b : Blog) : List Blog :=
  blogs.map (fun x => if x.id == b.id then b else x)

/-- `create_blog` service + POST /api/blogs/ route: insert a new PENDING
row authored by the current user. -/
def create_blog_endpoint (st : AppState) (current_user : User)
    (data : BlogCreate) (now : Nat) : Blog × AppState :=
  let blog : Blog :=
    { id := st.nextBlogId
      title := data.title
      content := data.content
      images := data.images
      status := BlogStatus.pending
      author_id := current_user.id
      created_at := now
      updated_at := now
      deleted_at := none }
  (blog, { blogs := st.blogs ++ [blog], nextBlogId := st.nextBlogId + 1 })

/-- GET /api/blogs/{blog_id}: 404 when missing, deleted, or hidden by
policy — one indistinguishable outcome. -/
def get_blog_endpoint (st : AppState) (current_user : Option User)
    (blog_id : Nat) : Except ApiError Blog :=
  match get_blog_for_view st.blogs blog_id current_user with
  | none => Except.error ApiError.notFound
  | some blog => Except.ok blog

/-- PUT /api/blogs/{blog_id}: 404 when missing/deleted, 403 when the edit
policy refuses, otherwise apply the partial patch. -/
def update_blog_endpoint (st : AppState) (current_user : User)
    (blog_id : Nat) (data : BlogUpdate) (now : Nat) :
    Except ApiError Blog × AppState :=
  match get_blog_by_id st.blogs blog_id with
  | none => (Except.error ApiError.notFound, st)
  | some blog =>
    if can_edit_blog blog current_user then
      let updated := applyBlogUpdate blog data now
      (Except.ok updated, { st with blogs := putBlog st.blogs updated })
    else
      (Except.error ApiError.forbidden, st)

/-- DELETE /api/blogs/{blog_id}: 404 when missing/deleted, 403 when the
delete policy refuses, otherwise set `deleted_at`. -/
def delete_blog_endpoint (st : AppState) (current_user : User)
    (blog_id : Nat) (now : Nat) : Except ApiError Unit × AppState :=
  match get_blog_by_id st.blogs blog_id with
  | none => (Except.error ApiError.notFound, st)
  | some blog =>
    if can_delete_blog blog current_user then
      let deleted := { blog with deleted_at := some now }
      (Except.ok (), { st with blogs := putBlog st.blogs deleted })
    else
      (Except.error ApiError.forbidden, st)

/-- POST /api/blogs/{blog_id}/approve: requires ADMIN or L1_APPROVER,
404 when missing/deleted, 400 when already APPROVED, otherwise the status
becomes APPROVED. -/
def approve_blog_endpoint (st : AppState) (approver : User)
    (blog_id : Nat) (now : Nat) : Except ApiError Blog × AppState :=
  match require_approver approver with
  | Except.error e => (Except.error e, st)
  | Except.ok _ =>
    match get_blog_by_id st.blogs blog_id with
    | none => (Except.error ApiError.notFound, st)
    | some blog =>
      if blog.status == BlogStatus.approved then
        (Except.error ApiError.badRequest, st)
      else
        let approved := approve_blog blog now
        (Except.ok approved, { st with blogs := putBlog st.blogs approved })

/-- POST /api/blogs/{blog_id}/reject: requires ADMIN or L1_APPROVER,
404 when missing/deleted, 400 when already REJECTED, otherwise the status
becomes REJECTED. -/
def reject_blog_endpoint (st : AppState) (approver : User)
    (blog_id : Nat) (now : Nat) : Except ApiError Blog × AppState :=
  match require_approver approver with
  | Except.error e => (Except.error e, st)
  | Except.ok _ =>
    match get_blog_by_id st.blogs blog_id with
    | none => (Except.error ApiError.notFound, st)
    | some blog =>
      if blog.status == BlogStatus.rejected then
        (Except.error ApiError.badRequest, st)
      else
        let rejected := reject_blog blog now
        (Except.ok rejected, { st with blogs := putBlog st.blogs rejected })

/-- One route-level operation on the blog table. -/
inductive Op where
  | submit (actor : User) (data : BlogCreate)
  | edit (actor : User) (blog_id : Nat) (data : BlogUpdate)
  | delete (actor : User) (blog_id : Nat)
  | approve (actor : User) (blog_id : Nat)
  | reject (actor : User) (blog_id : Nat)
deriving Repr

/-- Dispatch one operation through the corresponding endpoint. -/
def step (st : AppState) (op : Op) (now : Nat) : AppState :=
  match op with
  | Op.submit actor data => (create_blog_endpoint st actor data now).2
  | Op.edit actor blog_id data =>
    (update_blog_endpoint st actor blog_id data now).2
  | Op.delete actor blog_id => (delete_blog_endpoint st actor blog_id now).2
  | Op.approve actor blog_id => (approve_blog_endpoint st actor blog_id now).2
  | Op.reject actor blog_id => (reject_blog_endpoint st actor blog_id now).2

/-- Status of the row carrying a given id, ignoring soft deletion. -/
def statusOf (st : AppState) (blog_id : Nat) : Option BlogStatus :=
  (st.blogs.find? (fun b => b.id == blog_id)).map Blog.status

/-- Well-formed table: primary keys are distinct and below the sequence. -/
def AppState.WF (st : AppState) : Prop :=
  (st.blogs.map Blog.id).Nodup ∧ ∀ b ∈ st.blogs, b.id < st.nextBlogId

/-! ## app/notifications/manager.py -/

/-- The `new_pending_blog` payload published to every mailbox. -/
structure NotifEvent where
  blog_id : Nat
  title : String
  author_id : Nat
deriving DecidableEq, Repr

/-- The `_clients` dict of `NotificationsManager`: client id → ordered
mailbox queue; fresh client ids come from a sequence (uuid4 in the code). -/
structure NotifState where
  clients : List (Nat × List NotifEvent)
  nextClientId : Nat
deriving Repr

/-- The registration step of `NotificationsManager.connect`: a fresh
client id mapped to a fresh empty queue (the `connected` sentinel is
yielded on the stream, never queued). -/
def NotifState.connect (st : NotifState) : Nat × NotifState :=
  (st.nextClientId,
   { clients := st.clients ++ [(st.nextClientId, [])]
     nextClientId := st.nextClientId + 1 })

/-- The teardown in `connect`'s `finally`: drop this client's mailbox. -/
def NotifState.disconnect (st : NotifState) (client_id : Nat) : NotifState :=
  { st with clients := st.clients.filter (fun p => p.1 != client_id) }

/-- `notify_new_pending_blog(blog)`: return at once when no client is
registered, otherwise enqueue the event into every registered mailbox
(`put_nowait` on unbounded queues — appends in publish order). -/
def notify_new_pending_blog (st : NotifState) (blog : Blog) : NotifState :=
  if st.clients.isEmpty then st
  else
    let event : NotifEvent :=
      { blog_id := blog.id, title := blog.title, author_id := blog.author_id }
    { st with clients := st.clients.map (fun p => (p.1, p.2 ++ [event])) }

/-- Mailbox content for a client id (`none` when not registered). -/
def mailboxOf (st : NotifState) (client_id : Nat) : Option (List NotifEvent) :=
  (st.clients.find? (fun p => p.1 == client_id)).map Prod.snd

/-- Registered client ids are below the sequence. -/
def NotifState.WF (st : NotifState) : Prop :=
  ∀ p ∈ st.clients, p.1 < st.nextClientId

/-- GET /api/notifications/sse: `Depends(require_admin)` resolves before
the stream starts, so a non-admin gets 403 and no mailbox is registered;
an admin gets a fresh mailbox. -/
def notifications_sse (st : NotifState) (current_user : User) :
    Except ApiError Nat × NotifState :=
  match require_admin current_user with
  | Except.error e => (Except.error e, st)
  | Except.ok _ => (Except.ok st.connect.1, st.connect.2)

/-! ## app/blogs/chat_manager.py -/

/-- The `_connections` dict of `ChatManager`: blog id → set of live
websocket connections (connections carried as opaque ids, sets as
duplicate-free lists). -/
structure ChatState where
  rooms : List (Nat × List Nat)
deriving Repr

/-- Membership of a blog's room (`set()` default when no entry exists). -/
def roomOf (st : ChatState) (blog_id : Nat) : List Nat :=
  ((st.rooms.find? (fun p => p.1 == blog_id)).map Prod.snd).getD []

/-- Whether the registry holds an entry for this blog id. -/
def hasRoom (st : ChatState) (blog_id : Nat) : Bool :=
  (st.rooms.find? (fun p => p.1 == blog_id)).isSome

/-- Replace the entry for a blog id, or append one when absent
(`setdefault` followed by mutation). -/
def roomsSet (rooms : List (Nat × List Nat)) (blog_id : Nat)
    (conns : List Nat) : List (Nat × List Nat) :=
  if rooms.any (fun p => p.1 == blog_id) then
    rooms.map (fun p => if p.1 == blog_id then (blog_id, conns) else p)
  else
    rooms ++ [(blog_id, conns)]

/-- `ChatManager.connect(blog_id, websocket)`: accept and add to the
room, creating it when absent; a set add, so re-adding is a no-op. -/
def ChatState.connect (st : ChatState) (blog_id ws : Nat) : ChatState :=
  let room := roomOf st blog_id
  let room' := if ws ∈ room then room else room ++ [ws]
  { rooms := roomsSet st.rooms blog_id room' }

/-- `ChatManager.disconnect(blog_id, websocket)`: discard from the room
when an entry exists; pop the entry once the room is empty. -/
def ChatState.disconnect (st : ChatState) (blog_id ws : Nat) : ChatState :=
  if hasRoom st blog_id then
    let room := (roomOf st blog_id).erase ws
    if room.isEmpty then
      { rooms := st.rooms.filter (fun p => p.1 != blog_id) }
    else
      { rooms := roomsSet st.rooms blog_id room }
  else
    st

/-- The delivery loop of `broadcast`: walk the snapshot; a failing send is
caught and answered by `disconnect`, a successful one is recorded. `fails`
models which connections raise on `send_text`. -/
def sendAll (blog_id : Nat) (fails : Nat → Bool) :
    List Nat → ChatState → ChatState × List Nat
  | [], st => (st, [])
  | ws :: rest, st =>
    if fails ws then
      sendAll blog_id fails rest (st.disconnect blog_id ws)
    else
      let (st', delivered) := sendAll blog_id fails rest st
      (st', ws :: delivered)

/-- `ChatManager.broadcast(blog_id, message)`: snapshot the room
(`copy()`), then deliver to each snapshotted connection independently.
Returns the new registry, the connections that received the message, and
the snapshot that delivery was attempted on. -/
def ChatState.broadcast (st : ChatState) (blog_id : Nat)
    (fails : Nat → Bool) : ChatState × List Nat × List Nat :=
  let snapshot := roomOf st blog_id
  let r := sendAll blog_id fails snapshot st
  (r.1, r.2, snapshot)

/-- Room keys are distinct and each room is a duplicate-free set. -/
def ChatState.WF (st : ChatState) : Prop :=
  (st.rooms.map Prod.fst).Nodup ∧ ∀ p ∈ st.rooms, p.2.Nodup

/-! ## app/blogs/websocket.py -/

/-- `_get_user_from_token(token, db)` with JWT decoding abstracted to the
`sub` claim it yields: `none` models a missing/invalid token, `some uid`
a token whose subject is `uid`. Inactive or unknown users yield `none`. -/
def get_user_from_token (users : List User) (token : Option Nat) :
    Option User :=
  match token with
  | none => none
  | some uid =>
    match users.find? (fun u => u.id == uid) with
    | none => none
    | some u => if u.is_active then some u else none

/-- Outcome of the connection phase of the websocket endpoint. -/
inductive WsConnect where
  | refused
  | accepted (user : User)
deriving DecidableEq, Repr

/-- The connection phase of `blog_comments_websocket`: token present and
valid, user active, blog exists and not soft-deleted — then and only then
`chat_manager.connect` runs; otherwise the socket is closed with
WS_1008_POLICY_VIOLATION and the registry is untouched. -/
def blog_comments_ws_connect (users : List User) (db : List Blog)
    (st : ChatState) (blog_id : Nat) (token : Option Nat) (ws : Nat) :
    WsConnect × ChatState :=
  match get_user_from_token users token with
  | none => (WsConnect.refused, st)
  | some user =>
    match db.find? (fun b => b.id == blog_id && b.deleted_at.isNone) with
    | none => (WsConnect.refused, st)
    | some _ => (WsConnect.accepted user, st.connect blog_id ws)

/-- One inbound text frame, after the `json.loads` attempt: `malformed`
is text that is not valid JSON; `parsed` carries the `type` field and the
optional string `content` field. -/
inductive InFrame where
  | malformed (raw : String)
  | parsed (type : String) (content : Option String)
deriving Repr

/-- The outbound broadcast frame built for a persisted comment. -/
structure OutFrame where
  blog_id : Nat
  comment_id : Nat
  content : String
  user_id : Nat
  username : String
  created_at : Nat
deriving DecidableEq, Repr

/-- Mutable state of one websocket session: the comments table, its id
sequence, and the shared chat registry. -/
structure WsSession where
  comments : List Comment
  nextCommentId : Nat
  chat : ChatState
deriving Repr

/-- The body of the receive loop of `blog_comments_websocket` for one
frame: invalid JSON and non-`comment` types are ignored; a comment frame
is trimmed, dropped when empty, otherwise persisted and then broadcast
with the persisted row's id and timestamp. Returns the new session state
and the (connection, frame) deliveries made. -/
def handle_frame (sess : WsSession) (blog_id : Nat) (user : User)
    (now : Nat) (fails : Nat → Bool) (frame : InFrame) :
    WsSession × List (Nat × OutFrame) :=
  match frame with
  | InFrame.malformed _ => (sess, [])
  | InFrame.parsed type content =>
    if type == "comment" then
      let text := (content.getD "").trim
      if text == "" then (sess, [])
      else
        let comment : Comment :=
          { id := sess.nextCommentId
            content := text
            blog_id := blog_id
            user_id := user.id
            created_at := now }
        let outgoing : OutFrame :=
          { blog_id := blog_id
            comment_id := comment.id
            content := comment.content
            user_id := user.id
            username := user.username
            created_at := comment.created_at }
        let r := sess.chat.broadcast blog_id fails
        ({ comments := sess.comments ++ [comment]
           nextCommentId := sess.nextCommentId + 1
           chat := r.1 },
         r.2.1.map (fun ws => (ws, outgoing)))
    else
      (sess, [])

/-- The receive loop over a list of inbound frames. -/
def run_frames (sess : WsSession) (blog_id : Nat) (user : User)
    (now : Nat) (fails : Nat → Bool) :
    List InFrame → WsSession × List (Nat × OutFrame)
  | [] => (sess, [])
  | frame :: rest =>
    let r := handle_frame sess blog_id user now fails frame
    let r2 := run_frames r.1 blog_id user now fails rest
    (r2.1, r.2 ++ r2.2)

/-! ## Concrete fixtures used by witnesses and counterexamples -/

/-- An active admin. -/
def uAdmin : User := { id := 1, username := "admin", role := UserRole.admin, is_active := true }

/-- An active L1 approver. -/
def uApprover : User := { id := 2, username := "approver", role := UserRole.l1_approver, is_active := true }

/-- An active regular user, author of the fixture blogs. -/
def uAlice : User := { id := 3, username := "alice", role := UserRole.user, is_active := true }

/-- Another active regular user, unrelated to the fixture blogs. -/
def uBob : User := { id := 4, username := "bob", role := UserRole.user, is_active := true }

/-- A pending, non-deleted blog authored by `uAlice`. -/
def bPending : Blog :=
  { id := 1, title := "T", content := "C", images := none,
    status := BlogStatus.pending, author_id := 3,
    created_at := 10, updated_at := 10, deleted_at := none }

/-- A rejected, non-deleted blog authored by `uAlice`. -/
def bRejected : Blog :=
  { id := 2, title := "T2", content := "C2", images := none,
    status := BlogStatus.rejected, author_id := 3,
    created_at := 11, updated_at := 12, deleted_at := none }

/-- An approved, non-deleted blog authored by `uAlice`. -/
def bApproved : Blog :=
  { id := 3, title := "T3", content := "C3", images := none,
    status := BlogStatus.approved, author_id := 3,
    created_at := 12, updated_at := 13, deleted_at := none }

/-! ## Basic lemmas about the lookup helpers -/

/-- A hit of `get_blog_by_id` is a member row with the queried id and no
deletion timestamp. -/
theorem get_blog_by_id_props {db : List Blog} {i : Nat} {b : Blog}
    (h : get_blog_by_id db i = some b) :
    b ∈ db ∧ b.id = i ∧ b.deleted_at = none := by
  unfold get_blog_by_id at h
  have hmem := List.mem_of_find?_eq_some h
  have hp := List.find?_some h
  simp only [Bool.and_eq_true, beq_iff_eq, Option.isNone_iff_eq_none] at hp
  exact ⟨hmem, hp.1, hp.2⟩

/-- `_can_view_blog` decides exactly the disjunction stated by the spec:
approved, or author, or a privileged role. -/
theorem can_view_blog_iff (blog : Blog) (user : Option User) :
    can_view_blog blog user = true ↔
      (blog.status = BlogStatus.approved ∨
        ∃ u, user = some u ∧
          (u.id = blog.author_id ∨ u.role = UserRole.admin ∨
            u.role = UserRole.l1_approver)) := by
  unfold can_view_blog
  cases user with
  | none =>
    by_cases h : blog.status = BlogStatus.approved <;> simp [h, beq_iff_eq]
  | some u =>
    by_cases h : blog.status = BlogStatus.approved
    · simp [h, beq_iff_eq]
    · by_cases hid : u.id = blog.author_id
      · simp [h, hid, beq_iff_eq]
      · by_cases ha : u.role = UserRole.admin
        · simp [h, hid, ha, beq_iff_eq]
        · by_cases hl : u.role = UserRole.l1_approver <;>
            simp [h, hid, ha, hl, beq_iff_eq]

/-- C6: the view endpoint returns the post exactly when it is present and
not soft-deleted and the actor may see it (approved, author, or an
admin/approver role); every failure collapses to the same 404. -/
theorem view_policy_characterization (st : AppState)
    (current_user : Option User) (blog_id : Nat) (b : Blog) :
    (get_blog_endpoint st current_user blog_id = Except.ok b ↔
      (get_blog_by_id st.blogs blog_id = some b ∧ b.deleted_at = none ∧
        (b.status = BlogStatus.approved ∨
          ∃ u, current_user = some u ∧
            (u.id = b.author_id ∨ u.role = UserRole.admin ∨
              u.role = UserRole.l1_approver)))) ∧
    (∀ e, get_blog_endpoint st current_user blog_id = Except.error e →
      e = ApiError.notFound) := by
  constructor
  · unfold get_blog_endpoint get_blog_for_view
    cases h : get_blog_by_id st.blogs blog_id with
    | none => simp [h]
    | some blog =>
      by_cases hv : can_view_blog blog current_user = true
      · simp only [hv, if_true]
        constructor
        · intro hok
          have hb : blog = b := by
            cases hok
            rfl
          subst hb
          refine ⟨rfl, (get_blog_by_id_props h).2.2, ?_⟩
          exact (can_view_blog_iff blog current_user).mp hv
        · rintro ⟨hsome, -, -⟩
          cases hsome
          rfl
      · simp only [Bool.not_eq_true] at hv
        simp only [hv, Bool.false_eq_true, if_false]
        constructor
        · intro hok
          cases hok
        · rintro ⟨hsome, -, hpol⟩
          cases hsome
          have := (can_view_blog_iff b current_user).mpr hpol
          rw [hv] at this
          cases this
  · intro e he
    unfold get_blog_endpoint at he
    cases h : get_blog_for_view st.blogs blog_id current_user with
    | none => rw [h] at he; cases he; rfl
    | some blog => rw [h] at he; cases he

/-- C6 witness: a concrete instance of the characterization. -/
theorem view_policy_characterization_witness :
    (get_blog_endpoint { blogs := [bApproved], nextBlogId := 4 } none 3
        = Except.ok bApproved ↔
      (get_blog_by_id [bApproved] 3 = some bApproved ∧
        bApproved.deleted_at = none ∧
        (bApproved.status = BlogStatus.approved ∨
          ∃ u, (none : Option User) = some u ∧
            (u.id = bApproved.author_id ∨ u.role = UserRole.admin ∨
              u.role = UserRole.l1_approver)))) ∧
    (∀ e, get_blog_endpoint { blogs := [bApproved], nextBlogId := 4 } none 3
        = Except.error e → e = ApiError.notFound) :=
  view_policy_characterization { blogs := [bApproved], nextBlogId := 4 } none 3 bApproved

/-- C9: the public listing returns approved, non-deleted rows of the
table, newest first, windowed by offset/limit, and reports as `total` the
full count regardless of the window. -/
theorem public_listing_pagination (db : List Blog) (limit offset : Nat) :
    (list_approved_blogs db limit offset).2
        = (db.filter isApprovedNotDeleted).length ∧
    (list_approved_blogs db limit offset).1.length ≤ limit ∧
    (∀ b ∈ (list_approved_blogs db limit offset).1,
        b.status = BlogStatus.approved ∧ b.deleted_at = none ∧ b ∈ db) ∧
    List.Sorted createdDesc (list_approved_blogs db limit offset).1 ∧
    (list_approved_blogs db limit offset).1
        = ((list_approved_blogs db (limit + offset) 0).1).drop offset ∧
    List.Perm
      (list_approved_blogs db ((db.filter isApprovedNotDeleted).length) 0).1
      (db.filter isApprovedNotDeleted) := by
  have hsorted : List.Sorted createdDesc
      ((db.filter isApprovedNotDeleted).insertionSort createdDesc) :=
    List.sorted_insertionSort createdDesc (db.filter isApprovedNotDeleted)
  have hperm : List.Perm
      ((db.filter isApprovedNotDeleted).insertionSort createdDesc)
      (db.filter isApprovedNotDeleted) :=
    List.perm_insertionSort createdDesc (db.filter isApprovedNotDeleted)
  refine ⟨rfl, ?_, ?_, ?_, ?_, ?_⟩
  · exact List.length_take_le limit _
  · intro b hb
    have hb1 : b ∈ ((db.filter isApprovedNotDeleted).insertionSort
        createdDesc).drop offset := List.mem_of_mem_take hb
    have hb2 : b ∈ (db.filter isApprovedNotDeleted).insertionSort
        createdDesc := List.mem_of_mem_drop hb1
    have hb3 : b ∈ db.filter isApprovedNotDeleted := hperm.mem_iff.mp hb2
    have hb4 := List.mem_filter.mp hb3
    have hp := hb4.2
    simp only [isApprovedNotDeleted, Bool.and_eq_true, beq_iff_eq,
      Option.isNone_iff_eq_none] at hp
    exact ⟨hp.1, hp.2, hb4.1⟩
  · have hsub : List.Sublist
        ((((db.filter isApprovedNotDeleted).insertionSort
          createdDesc).drop offset).take limit)
        ((db.filter isApprovedNotDeleted).insertionSort createdDesc) :=
      (List.take_sublist _ _).trans (List.drop_sublist _ _)
    exact List.Pairwise.sublist hsub hsorted
  · show (((db.filter isApprovedNotDeleted).insertionSort
        createdDesc).drop offset).take limit
      = ((((db.filter isApprovedNotDeleted).insertionSort
        createdDesc).drop 0).take (limit + offset)).drop offset
    rw [List.drop_zero, List.drop_take]
    congr 1
    omega
  · show List.Perm
      ((((db.filter isApprovedNotDeleted).insertionSort
        createdDesc).drop 0).take ((db.filter isApprovedNotDeleted).length))
      (db.filter isApprovedNotDeleted)
    rw [List.drop_zero, ← hperm.length_eq, List.take_length]
    exact hperm

/-- C9 witness: concrete pagination over a three-row table. -/
theorem public_listing_pagination_witness :
    ((list_approved_blogs [bPending, bApproved, bRejected] 2 0).2
        = ([bPending, bApproved, bRejected].filter
            isApprovedNotDeleted).length ∧
    (list_approved_blogs [bPending, bApproved, bRejected] 2 0).1.length ≤ 2 ∧
    (∀ b ∈ (list_approved_blogs [bPending, bApproved, bRejected] 2 0).1,
        b.status = BlogStatus.approved ∧ b.deleted_at = none ∧
          b ∈ [bPending, bApproved, bRejected]) ∧
    List.Sorted createdDesc
      (list_approved_blogs [bPending, bApproved, bRejected] 2 0).1 ∧
    (list_approved_blogs [bPending, bApproved, bRejected] 2 0).1
        = ((list_approved_blogs [bPending, bApproved, bRejected] (2 + 0)
            0).1).drop 0 ∧
    List.Perm
      (list_approved_blogs [bPending, bApproved, bRejected]
        (([bPending, bApproved, bRejected].filter
            isApprovedNotDeleted).length) 0).1
      ([bPending, bApproved, bRejected].filter isApprovedNotDeleted)) :=
  public_listing_pagination [bPending, bApproved, bRejected] 2 0

/-! ## Lemmas about `List.find?` over association-style lists and `putBlog` -/

/-- `find?` on a cons whose head satisfies the predicate. -/
theorem find?_cons_pos {α : Type} (p : α → Bool) (a : α) (l : List α)
    (h : p a = true) : (a :: l).find? p = some a := by
  simp [List.find?_cons, h]

/-- `find?` on a cons whose head fails the predicate. -/
theorem find?_cons_neg {α : Type} (p : α → Bool) (a : α) (l : List α)
    (h : ¬ p a = true) : (a :: l).find? p = l.find? p := by
  simp only [List.find?_cons, Bool.not_eq_true] at *
  simp [h]

/-- After flushing a row `v` whose id matches the id under which some row
was found, `get_blog_by_id` returns `v` (provided `v` is not deleted). -/
theorem get_blog_by_id_putBlog {blogs : List Blog} {i : Nat} {b : Blog}
    (v : Blog) (h : get_blog_by_id blogs i = some b) (hid : v.id = b.id)
    (hdel : v.deleted_at = none) :
    get_blog_by_id (putBlog blogs v) i = some v := by
  have hbid : b.id = i := (get_blog_by_id_props h).2.1
  unfold get_blog_by_id at h ⊢
  unfold putBlog
  induction blogs with
  | nil => cases h
  | cons a rest ih =>
    have hv : (fun x : Blog => x.id == i && x.deleted_at.isNone) v = true := by
      simp [beq_iff_eq, hid, hbid, hdel]
    by_cases hp : (fun x : Blog => x.id == i && x.deleted_at.isNone) a = true
    · have haid : a.id = i := by
        have := hp
        simp only [Bool.and_eq_true, beq_iff_eq] at this
        exact this.1
      have hav : (a.id == v.id) = true := by
        simp [beq_iff_eq, haid, hid, hbid]
      simp only [List.map_cons, hav, if_true]
      exact find?_cons_pos (fun x : Blog => x.id == i && x.deleted_at.isNone)
        v _ hv
    · rw [find?_cons_neg (fun x : Blog => x.id == i && x.deleted_at.isNone)
        a rest hp] at h
      by_cases hav : (a.id == v.id) = true
      · simp only [List.map_cons, hav, if_true]
        exact find?_cons_pos
          (fun x : Blog => x.id == i && x.deleted_at.isNone) v _ hv
      · rw [Bool.not_eq_true] at hav
        simp only [List.map_cons, hav, Bool.false_eq_true, if_false]
        rw [find?_cons_neg (fun x : Blog => x.id == i && x.deleted_at.isNone)
          a _ hp]
        exact ih h

/-- Flushing a row leaves lookups under every other id unchanged. -/
theorem get_blog_by_id_putBlog_other {blogs : List Blog} {i : Nat}
    (v : Blog) (hne : v.id ≠ i) :
    get_blog_by_id (putBlog blogs v) i = get_blog_by_id blogs i := by
  unfold get_blog_by_id putBlog
  induction blogs with
  | nil => rfl
  | cons a rest ih =>
    by_cases hav : (a.id == v.id) = true
    · have haid : a.id = v.id := by simpa [beq_iff_eq] using hav
      simp only [List.map_cons, hav, if_true]
      have hpa : ¬ (fun x : Blog => x.id == i && x.deleted_at.isNone) a
          = true := by
        simp only [Bool.and_eq_true, beq_iff_eq, haid]
        intro hc
        exact hne hc.1
      have hpv : ¬ (fun x : Blog => x.id == i && x.deleted_at.isNone) v
          = true := by
        simp only [Bool.and_eq_true, beq_iff_eq]
        intro hc
        exact hne hc.1
      rw [find?_cons_neg (fun x : Blog => x.id == i && x.deleted_at.isNone)
        v _ hpv,
        find?_cons_neg (fun x : Blog => x.id == i && x.deleted_at.isNone)
        a rest hpa]
      exact ih
    · rw [Bool.not_eq_true] at hav
      simp only [List.map_cons, hav, Bool.false_eq_true, if_false]
      by_cases hpa : (fun x : Blog => x.id == i && x.deleted_at.isNone) a
          = true
      · rw [find?_cons_pos (fun x : Blog => x.id == i && x.deleted_at.isNone)
          a _ hpa,
          find?_cons_pos (fun x : Blog => x.id == i && x.deleted_at.isNone)
          a rest hpa]
      · rw [find?_cons_neg (fun x : Blog => x.id == i && x.deleted_at.isNone)
          a _ hpa,
          find?_cons_neg (fun x : Blog => x.id == i && x.deleted_at.isNone)
          a rest hpa]
        exact ih

/-- C7: approving a PENDING post succeeds and a second approval raises
the already-approved conflict with no further mutation; approving or
rejecting a post already in the target status always conflicts without
mutation. -/
theorem approve_twice_conflict (st : AppState) (approver : User)
    (blog_id : Nat) (now1 now2 : Nat) (b : Blog)
    (hrole : approver.role = UserRole.admin ∨
      approver.role = UserRole.l1_approver)
    (hfind : get_blog_by_id st.blogs blog_id = some b)
    (hpending : b.status = BlogStatus.pending) :
    (approve_blog_endpoint st approver blog_id now1).1
        = Except.ok (approve_blog b now1) ∧
    (approve_blog b now1).status = BlogStatus.approved ∧
    get_blog_by_id ((approve_blog_endpoint st approver blog_id now1).2).blogs
        blog_id = some (approve_blog b now1) ∧
    approve_blog_endpoint (approve_blog_endpoint st approver blog_id now1).2
        approver blog_id now2
      = (Except.error ApiError.badRequest,
         (approve_blog_endpoint st approver blog_id now1).2) ∧
    (∀ st2 b2, get_blog_by_id st2.blogs blog_id = some b2 →
      b2.status = BlogStatus.approved →
      approve_blog_endpoint st2 approver blog_id now2
        = (Except.error ApiError.badRequest, st2)) ∧
    (∀ st2 b2, get_blog_by_id st2.blogs blog_id = some b2 →
      b2.status = BlogStatus.rejected →
      reject_blog_endpoint st2 approver blog_id now2
        = (Except.error ApiError.badRequest, st2)) := by
  have hra : require_approver approver = Except.ok approver := by
    unfold require_approver
    rcases hrole with h | h <;> simp [h]
  have hnotap : ¬ (b.status == BlogStatus.approved) = true := by
    simp [hpending]
  have hfirst : approve_blog_endpoint st approver blog_id now1
      = (Except.ok (approve_blog b now1),
         { st with blogs := putBlog st.blogs (approve_blog b now1) }) := by
    unfold approve_blog_endpoint
    rw [hra, hfind]
    simp [hnotap]
  have hfind2 : get_blog_by_id
      ((approve_blog_endpoint st approver blog_id now1).2).blogs blog_id
      = some (approve_blog b now1) := by
    rw [hfirst]
    exact get_blog_by_id_putBlog (approve_blog b now1) hfind rfl
      (get_blog_by_id_props hfind).2.2
  have happroved : ∀ st2 b2, get_blog_by_id st2.blogs blog_id = some b2 →
      b2.status = BlogStatus.approved →
      approve_blog_endpoint st2 approver blog_id now2
        = (Except.error ApiError.badRequest, st2) := by
    intro st2 b2 hf2 hs2
    unfold approve_blog_endpoint
    rw [hra, hf2]
    simp [hs2]
  have hrejected : ∀ st2 b2, get_blog_by_id st2.blogs blog_id = some b2 →
      b2.status = BlogStatus.rejected →
      reject_blog_endpoint st2 approver blog_id now2
        = (Except.error ApiError.badRequest, st2) := by
    intro st2 b2 hf2 hs2
    unfold reject_blog_endpoint
    rw [hra, hf2]
    simp [hs2]
  refine ⟨by rw [hfirst], rfl, hfind2, ?_, happroved, hrejected⟩
  exact happroved _ _ hfind2 rfl

/-- C7 witness: the double-approval scenario on a concrete pending post. -/
theorem approve_twice_conflict_witness :
    (approve_blog_endpoint { blogs := [bPending], nextBlogId := 4 } uAdmin
        1 20).1 = Except.ok (approve_blog bPending 20) ∧
    (approve_blog bPending 20).status = BlogStatus.approved ∧
    get_blog_by_id ((approve_blog_endpoint
        { blogs := [bPending], nextBlogId := 4 } uAdmin 1 20).2).blogs 1
      = some (approve_blog bPending 20) ∧
    approve_blog_endpoint (approve_blog_endpoint
        { blogs := [bPending], nextBlogId := 4 } uAdmin 1 20).2 uAdmin 1 21
      = (Except.error ApiError.badRequest,
         (approve_blog_endpoint { blogs := [bPending], nextBlogId := 4 }
            uAdmin 1 20).2) ∧
    (∀ st2 b2, get_blog_by_id st2.blogs 1 = some b2 →
      b2.status = BlogStatus.approved →
      approve_blog_endpoint st2 uAdmin 1 21
        = (Except.error ApiError.badRequest, st2)) ∧
    (∀ st2 b2, get_blog_by_id st2.blogs 1 = some b2 →
      b2.status = BlogStatus.rejected →
      reject_blog_endpoint st2 uAdmin 1 21
        = (Except.error ApiError.badRequest, st2)) :=
  approve_twice_conflict { blogs := [bPending], nextBlogId := 4 } uAdmin
    1 20 21 bPending (Or.inl rfl) (by decide) (by decide)

/-! ## Status-transition lemmas for the lifecycle state machine -/

/-- C1 counterexample: the approve endpoint only guards against an
already-APPROVED status, so a REJECTED post is moved to APPROVED —
REJECTED is not terminal. -/
theorem rejected_blog_can_be_approved :
    statusOf { blogs := [bRejected], nextBlogId := 4 } 2
        = some BlogStatus.rejected ∧
    statusOf (step { blogs := [bRejected], nextBlogId := 4 }
        (Op.approve uAdmin 2) 20) 2 = some BlogStatus.approved := by
  constructor <;> rfl

/-- The partial patch of the edit endpoint never touches the id, status
or deletion timestamp. -/
theorem applyBlogUpdate_preserves (b : Blog) (d : BlogUpdate) (n : Nat) :
    (applyBlogUpdate b d n).id = b.id ∧
    (applyBlogUpdate b d n).status = b.status ∧
    (applyBlogUpdate b d n).deleted_at = b.deleted_at := by
  obtain ⟨t, c, im⟩ := d
  cases t <;> cases c <;> cases im <;> simp [applyBlogUpdate]

/-- Raw id lookup after flushing a row under the same id. -/
theorem find?_id_putBlog_same {blogs : List Blog} {i : Nat} {r : Blog}
    (v : Blog) (h : blogs.find? (fun x => x.id == i) = some r)
    (hv : v.id = i) :
    (putBlog blogs v).find? (fun x => x.id == i) = some v := by
  unfold putBlog
  induction blogs with
  | nil => cases h
  | cons a rest ih =>
    by_cases hp : (fun x : Blog => x.id == i) a = true
    · have hav : (a.id == v.id) = true := by
        have : a.id = i := by simpa [beq_iff_eq] using hp
        simp [beq_iff_eq, this, hv]
      simp only [List.map_cons, hav, if_true]
      exact find?_cons_pos (fun x : Blog => x.id == i) v _
        (by simp [beq_iff_eq, hv])
    · rw [find?_cons_neg (fun x : Blog => x.id == i) a rest hp] at h
      have hav : ¬ (a.id == v.id) = true := by
        intro hc
        apply hp
        have : a.id = v.id := by simpa [beq_iff_eq] using hc
        simp [beq_iff_eq, this, hv]
      rw [Bool.not_eq_true] at hav
      simp only [List.map_cons, hav, Bool.false_eq_true, if_false]
      rw [find?_cons_neg (fun x : Blog => x.id == i) a _ hp]
      exact ih h

/-- Raw id lookup under a different id is unchanged by a flush. -/
theorem find?_id_putBlog_other {blogs : List Blog} {i : Nat} (v : Blog)
    (hne : v.id ≠ i) :
    (putBlog blogs v).find? (fun x => x.id == i)
      = blogs.find? (fun x => x.id == i) := by
  unfold putBlog
  induction blogs with
  | nil => rfl
  | cons a rest ih =>
    by_cases hav : (a.id == v.id) = true
    · have haid : a.id = v.id := by simpa [beq_iff_eq] using hav
      simp only [List.map_cons, hav, if_true]
      have hpa : ¬ (fun x : Blog => x.id == i) a = true := by
        simp only [beq_iff_eq, haid]
        exact hne
      have hpv : ¬ (fun x : Blog => x.id == i) v = true := by
        simp only [beq_iff_eq]
        exact hne
      rw [find?_cons_neg (fun x : Blog => x.id == i) v _ hpv,
        find?_cons_neg (fun x : Blog => x.id == i) a rest hpa]
      exact ih
    · rw [Bool.not_eq_true] at hav
      simp only [List.map_cons, hav, Bool.false_eq_true, if_false]
      by_cases hpa : (fun x : Blog => x.id == i) a = true
      · rw [find?_cons_pos (fun x : Blog => x.id == i) a _ hpa,
          find?_cons_pos (fun x : Blog => x.id == i) a rest hpa]
      · rw [find?_cons_neg (fun x : Blog => x.id == i) a _ hpa,
          find?_cons_neg (fun x : Blog => x.id == i) a rest hpa]
        exact ih

/-- With distinct primary keys, the raw id lookup agrees with the
deletion-filtered lookup whenever the latter hits. -/
theorem find?_id_of_get_blog_by_id {blogs : List Blog} {i : Nat} {b : Blog}
    (hnd : (blogs.map Blog.id).Nodup)
    (h : get_blog_by_id blogs i = some b) :
    blogs.find? (fun x => x.id == i) = some b := by
  unfold get_blog_by_id at h
  induction blogs with
  | nil => cases h
  | cons a rest ih =>
    rw [List.map_cons, List.nodup_cons] at hnd
    by_cases hai : (fun x : Blog => x.id == i) a = true
    · rw [find?_cons_pos (fun x : Blog => x.id == i) a rest hai]
      by_cases hdel : a.deleted_at.isNone = true
      · have hp : (fun x : Blog => x.id == i && x.deleted_at.isNone) a
            = true := by
          simp only [Bool.and_eq_true]
          exact ⟨hai, hdel⟩
        rw [find?_cons_pos
          (fun x : Blog => x.id == i && x.deleted_at.isNone) a rest hp] at h
        exact h
      · have hp : ¬ (fun x : Blog => x.id == i && x.deleted_at.isNone) a
            = true := by
          simp only [Bool.and_eq_true]
          intro hc
          exact hdel hc.2
        rw [find?_cons_neg
          (fun x : Blog => x.id == i && x.deleted_at.isNone) a rest hp] at h
        exfalso
        have hprops := get_blog_by_id_props
          (show get_blog_by_id rest i = some b from h)
        apply hnd.1
        have haid : a.id = i := by simpa [beq_iff_eq] using hai
        have : b.id ∈ rest.map Blog.id := List.mem_map_of_mem _ hprops.1
        rw [haid, ← hprops.2.1]
        exact this
    · rw [find?_cons_neg (fun x : Blog => x.id == i) a rest hai]
      have hp : ¬ (fun x : Blog => x.id == i && x.deleted_at.isNone) a
          = true := by
        simp only [Bool.and_eq_true]
        intro hc
        exact hai hc.1
      rw [find?_cons_neg
        (fun x : Blog => x.id == i && x.deleted_at.isNone) a rest hp] at h
      exact ih hnd.2 h

/-- With distinct keys, a filtered hit determines the raw status. -/
theorem statusOf_eq_of_get {st : AppState} {i : Nat} {b : Blog}
    (hnd : (st.blogs.map Blog.id).Nodup)
    (h : get_blog_by_id st.blogs i = some b) :
    statusOf st i = some b.status := by
  unfold statusOf
  rw [find?_id_of_get_blog_by_id hnd h]
  rfl

/-- Status per id after flushing a mutated row under the key of a
filtered hit. -/
theorem statusOf_putBlog {st : AppState} {i : Nat} {b : Blog} (v : Blog)
    (hnd : (st.blogs.map Blog.id).Nodup)
    (hfind : get_blog_by_id st.blogs i = some b) (hid : v.id = b.id)
    (j : Nat) :
    statusOf { st with blogs := putBlog st.blogs v } j
      = if j = i then some v.status else statusOf st j := by
  have hbid : b.id = i := (get_blog_by_id_props hfind).2.1
  by_cases hj : j = i
  · subst hj
    unfold statusOf
    simp only
    rw [find?_id_putBlog_same v (find?_id_of_get_blog_by_id hnd hfind)
      (by rw [hid, hbid])]
    simp
  · unfold statusOf
    simp only
    rw [find?_id_putBlog_other v (by rw [hid, hbid]; exact fun hc => hj hc.symm)]
    simp [hj]

/-- C1 amended: every status is one of the three enum values and a new
post starts PENDING, but APPROVED and REJECTED are not terminal: a step
changes a post's status only through the approve endpoint (to APPROVED,
from any status other than APPROVED — including REJECTED) or through the
reject endpoint (to REJECTED, from any status other than REJECTED —
including APPROVED); only the transition onto the current status is
refused. -/
theorem status_transition_characterization (st : AppState) (op : Op)
    (now i : Nat) (hWF : st.WF) :
    (∀ u d n, ((create_blog_endpoint st u d n).1).status
        = BlogStatus.pending) ∧
    (∀ s, statusOf st i = some s →
      s = BlogStatus.pending ∨ s = BlogStatus.approved ∨
        s = BlogStatus.rejected) ∧
    (statusOf (step st op now) i = statusOf st i ∨
     (statusOf st i = none ∧
       statusOf (step st op now) i = some BlogStatus.pending) ∨
     (statusOf (step st op now) i = some BlogStatus.approved ∧
       statusOf st i ≠ some BlogStatus.approved ∧
       ∃ a, op = Op.approve a i) ∨
     (statusOf (step st op now) i = some BlogStatus.rejected ∧
       statusOf st i ≠ some BlogStatus.rejected ∧
       ∃ a, op = Op.reject a i)) := by
  obtain ⟨hnd, -⟩ := hWF
  refine ⟨fun u d n => rfl, ?_, ?_⟩
  · intro s _
    cases s
    · exact Or.inl rfl
    · exact Or.inr (Or.inl rfl)
    · exact Or.inr (Or.inr rfl)
  · cases op with
    | submit u d =>
      simp only [step, create_blog_endpoint]
      unfold statusOf
      simp only [List.find?_append]
      cases hfind : st.blogs.find? (fun x => x.id == i) with
      | some r => left; rfl
      | none =>
        by_cases hni : st.nextBlogId = i
        · right; left
          refine ⟨rfl, ?_⟩
          show Option.map Blog.status (Option.or none _) = _
          rw [Option.none_or]
          rw [find?_cons_pos (fun x : Blog => x.id == i) _ []
            (by simp [beq_iff_eq, hni])]
          rfl
        · left
          show Option.map Blog.status (Option.or none _)
            = Option.map Blog.status none
          rw [Option.none_or]
          rw [find?_cons_neg (fun x : Blog => x.id == i) _ []
            (by simp [beq_iff_eq, hni])]
          rfl
    | edit u blog_id d =>
      simp only [step]
      cases hfind : get_blog_by_id st.blogs blog_id with
      | none =>
        left
        have hstep : (update_blog_endpoint st u blog_id d now).2 = st := by
          unfold update_blog_endpoint
          rw [hfind]
        rw [hstep]
      | some blog =>
        by_cases hedit : can_edit_blog blog u = true
        · have hstep : (update_blog_endpoint st u blog_id d now).2 = { st with blogs := putBlog st.blogs (applyBlogUpdate blog d now) } := by
            unfold update_blog_endpoint
            rw [hfind]
            simp [hedit]
          rw [hstep]
          have hpres := applyBlogUpdate_preserves blog d now
          rw [statusOf_putBlog (applyBlogUpdate blog d now) hnd hfind
            hpres.1 i]
          by_cases hi : i = blog_id
          · left
            subst hi
            rw [if_pos rfl, hpres.2.1, statusOf_eq_of_get hnd hfind]
          · left
            rw [if_neg hi]
        · left
          have hstep : (update_blog_endpoint st u blog_id d now).2 = st := by
            unfold update_blog_endpoint
            rw [hfind]
            simp [hedit]
          rw [hstep]
    | delete u blog_id =>
      simp only [step]
      cases hfind : get_blog_by_id st.blogs blog_id with
      | none =>
        left
        have hstep : (delete_blog_endpoint st u blog_id now).2 = st := by
          unfold delete_blog_endpoint
          rw [hfind]
        rw [hstep]
      | some blog =>
        by_cases hdel : can_delete_blog blog u = true
        · have hstep : (delete_blog_endpoint st u blog_id now).2 = { st with blogs := putBlog st.blogs { blog with deleted_at := some now } } := by
            unfold delete_blog_endpoint
            rw [hfind]
            simp [hdel]
          rw [hstep]
          rw [statusOf_putBlog { blog with deleted_at := some now } hnd hfind
            rfl i]
          by_cases hi : i = blog_id
          · left
            subst hi
            rw [if_pos rfl, statusOf_eq_of_get hnd hfind]
          · left
            rw [if_neg hi]
        · left
          have hstep : (delete_blog_endpoint st u blog_id now).2 = st := by
            unfold delete_blog_endpoint
            rw [hfind]
            simp [hdel]
          rw [hstep]
    | approve u blog_id =>
      simp only [step]
      by_cases hr : (u.role == UserRole.admin
          || u.role == UserRole.l1_approver) = true
      · have hra : require_approver u = Except.ok u := by
          unfold require_approver
          simp [hr]
        cases hfind : get_blog_by_id st.blogs blog_id with
        | none =>
          left
          have hstep : (approve_blog_endpoint st u blog_id now).2 = st := by
            unfold approve_blog_endpoint
            rw [hra, hfind]
          rw [hstep]
        | some blog =>
          by_cases hs : (blog.status == BlogStatus.approved) = true
          · left
            have hstep : (approve_blog_endpoint st u blog_id now).2 = st := by
              unfold approve_blog_endpoint
              rw [hra, hfind]
              simp [hs]
            rw [hstep]
          · have hstep : (approve_blog_endpoint st u blog_id now).2 = { st with blogs := putBlog st.blogs (approve_blog blog now) } := by
              unfold approve_blog_endpoint
              rw [hra, hfind]
              simp [hs]
            rw [hstep]
            rw [statusOf_putBlog (approve_blog blog now) hnd hfind rfl i]
            by_cases hi : i = blog_id
            · right; right; left
              subst hi
              refine ⟨by rw [if_pos rfl]; rfl, ?_, ⟨u, rfl⟩⟩
              rw [statusOf_eq_of_get hnd hfind]
              intro hc
              apply hs
              have hbs := Option.some.inj hc
              simp [hbs]
            · left
              rw [if_neg hi]
      · left
        have hstep : (approve_blog_endpoint st u blog_id now).2 = st := by
          unfold approve_blog_endpoint require_approver
          rw [Bool.not_eq_true] at hr
          rw [hr]
          simp
        rw [hstep]
    | reject u blog_id =>
      simp only [step]
      by_cases hr : (u.role == UserRole.admin
          || u.role == UserRole.l1_approver) = true
      · have hra : require_approver u = Except.ok u := by
          unfold require_approver
          simp [hr]
        cases hfind : get_blog_by_id st.blogs blog_id with
        | none =>
          left
          have hstep : (reject_blog_endpoint st u blog_id now).2 = st := by
            unfold reject_blog_endpoint
            rw [hra, hfind]
          rw [hstep]
        | some blog =>
          by_cases hs : (blog.status == BlogStatus.rejected) = true
          · left
            have hstep : (reject_blog_endpoint st u blog_id now).2 = st := by
              unfold reject_blog_endpoint
              rw [hra, hfind]
              simp [hs]
            rw [hstep]
          · have hstep : (reject_blog_endpoint st u blog_id now).2 = { st with blogs := putBlog st.blogs (reject_blog blog now) } := by
              unfold reject_blog_endpoint
              rw [hra, hfind]
              simp [hs]
            rw [hstep]
            rw [statusOf_putBlog (reject_blog blog now) hnd hfind rfl i]
            by_cases hi : i = blog_id
            · right; right; right
              subst hi
              refine ⟨by rw [if_pos rfl]; rfl, ?_, ⟨u, rfl⟩⟩
              rw [statusOf_eq_of_get hnd hfind]
              intro hc
              apply hs
              have hbs := Option.some.inj hc
              simp [hbs]
            · left
              rw [if_neg hi]
      · left
        have hstep : (reject_blog_endpoint st u blog_id now).2 = st := by
          unfold reject_blog_endpoint require_approver
          rw [Bool.not_eq_true] at hr
          rw [hr]
          simp
        rw [hstep]

/-- C1 amended witness: the characterization at a concrete one-row state
under a concrete approve operation. -/
theorem status_transition_characterization_witness :
    (∀ u d n, ((create_blog_endpoint
        { blogs := [bRejected], nextBlogId := 4 } u d n).1).status
          = BlogStatus.pending) ∧
    (∀ s, statusOf { blogs := [bRejected], nextBlogId := 4 } 2 = some s →
      s = BlogStatus.pending ∨ s = BlogStatus.approved ∨
        s = BlogStatus.rejected) ∧
    (statusOf (step { blogs := [bRejected], nextBlogId := 4 }
        (Op.approve uAdmin 2) 20) 2
        = statusOf { blogs := [bRejected], nextBlogId := 4 } 2 ∨
     (statusOf { blogs := [bRejected], nextBlogId := 4 } 2 = none ∧
       statusOf (step { blogs := [bRejected], nextBlogId := 4 }
         (Op.approve uAdmin 2) 20) 2 = some BlogStatus.pending) ∨
     (statusOf (step { blogs := [bRejected], nextBlogId := 4 }
         (Op.approve uAdmin 2) 20) 2 = some BlogStatus.approved ∧
       statusOf { blogs := [bRejected], nextBlogId := 4 } 2
         ≠ some BlogStatus.approved ∧
       ∃ a, Op.approve uAdmin 2 = Op.approve a 2) ∨
     (statusOf (step { blogs := [bRejected], nextBlogId := 4 }
         (Op.approve uAdmin 2) 20) 2 = some BlogStatus.rejected ∧
       statusOf { blogs := [bRejected], nextBlogId := 4 } 2
         ≠ some BlogStatus.rejected ∧
       ∃ a, Op.approve uAdmin 2 = Op.reject a 2)) :=
  status_transition_characterization { blogs := [bRejected], nextBlogId := 4 }
    (Op.approve uAdmin 2) 20 2 ⟨by decide, by decide⟩

/-! ## Lemmas about the chat room registry -/

/-- `filter` on a cons whose head satisfies the predicate. -/
theorem filter_cons_pos {α : Type} (p : α → Bool) (a : α) (l : List α)
    (h : p a = true) : (a :: l).filter p = a :: l.filter p := by
  simp [List.filter_cons, h]

/-- `filter` on a cons whose head fails the predicate. -/
theorem filter_cons_neg {α : Type} (p : α → Bool) (a : α) (l : List α)
    (h : ¬ p a = true) : (a :: l).filter p = l.filter p := by
  rw [Bool.not_eq_true] at h
  simp [List.filter_cons, h]

/-- Dropping the entry of key `i` makes the key-`i` lookup miss. -/
theorem find?_key_filter_ne_self (rooms : List (Nat × List Nat)) (i : Nat) :
    (rooms.filter (fun p => p.1 != i)).find? (fun p => p.1 == i) = none := by
  induction rooms with
  | nil => rfl
  | cons a rest ih =>
    by_cases h : (fun p : Nat × List Nat => p.1 != i) a = true
    · rw [filter_cons_pos (fun p : Nat × List Nat => p.1 != i) a rest h]
      have hne : ¬ (fun p : Nat × List Nat => p.1 == i) a = true := by
        simp only [bne_iff_ne] at h
        simp only [beq_iff_eq]
        exact h
      rw [find?_cons_neg (fun p : Nat × List Nat => p.1 == i) a _ hne]
      exact ih
    · rw [filter_cons_neg (fun p : Nat × List Nat => p.1 != i) a rest h]
      exact ih

/-- Dropping the entry of key `i` keeps every other key's lookup. -/
theorem find?_key_filter_ne_other (rooms : List (Nat × List Nat))
    (i j : Nat) (hne : j ≠ i) :
    (rooms.filter (fun p => p.1 != i)).find? (fun p => p.1 == j)
      = rooms.find? (fun p => p.1 == j) := by
  induction rooms with
  | nil => rfl
  | cons a rest ih =>
    by_cases hj : (fun p : Nat × List Nat => p.1 == j) a = true
    · have haj : a.1 = j := by simpa [beq_iff_eq] using hj
      have hi : (fun p : Nat × List Nat => p.1 != i) a = true := by
        simp only [bne_iff_ne, haj]
        exact hne
      rw [filter_cons_pos (fun p : Nat × List Nat => p.1 != i) a rest hi]
      rw [find?_cons_pos (fun p : Nat × List Nat => p.1 == j) a _ hj,
        find?_cons_pos (fun p : Nat × List Nat => p.1 == j) a rest hj]
    · by_cases hi : (fun p : Nat × List Nat => p.1 != i) a = true
      · rw [filter_cons_pos (fun p : Nat × List Nat => p.1 != i) a rest hi]
        rw [find?_cons_neg (fun p : Nat × List Nat => p.1 == j) a _ hj,
          find?_cons_neg (fun p : Nat × List Nat => p.1 == j) a rest hj]
        exact ih
      · rw [filter_cons_neg (fun p : Nat × List Nat => p.1 != i) a rest hi]
        rw [find?_cons_neg (fun p : Nat × List Nat => p.1 == j) a rest hj]
        exact ih

/-- `roomsSet` walks past a head with a different key. -/
theorem roomsSet_cons_ne (a : Nat × List Nat) (rest : List (Nat × List Nat))
    (i : Nat) (conns : List Nat) (h : ¬ (a.1 == i) = true) :
    roomsSet (a :: rest) i conns = a :: roomsSet rest i conns := by
  unfold roomsSet
  rw [Bool.not_eq_true] at h
  by_cases hany : rest.any (fun p => p.1 == i) = true
  · rw [if_pos (by simp [List.any_cons, h, hany]), if_pos hany]
    simp only [List.map_cons, h, Bool.false_eq_true, if_false]
  · rw [if_neg (by simp [List.any_cons, h, hany]), if_neg hany]
    simp

/-- Replacing all key-`i` entries leaves lookups of key `j ≠ i` alone. -/
theorem find?_key_map_replace (rest : List (Nat × List Nat)) (i j : Nat)
    (conns : List Nat) (hne : j ≠ i) :
    (rest.map (fun p => if p.1 == i then (i, conns) else p)).find?
        (fun p => p.1 == j)
      = rest.find? (fun p => p.1 == j) := by
  induction rest with
  | nil => rfl
  | cons a l ih =>
    simp only [List.map_cons]
    by_cases h : (a.1 == i) = true
    · have hai : a.1 = i := by simpa [beq_iff_eq] using h
      rw [if_pos h]
      have h1 : ¬ (fun p : Nat × List Nat => p.1 == j) (i, conns) = true := by
        simp only [beq_iff_eq]
        exact fun hc => hne hc.symm
      have h2 : ¬ (fun p : Nat × List Nat => p.1 == j) a = true := by
        simp only [beq_iff_eq, hai]
        exact fun hc => hne hc.symm
      rw [find?_cons_neg (fun p : Nat × List Nat => p.1 == j) (i, conns) _ h1,
        find?_cons_neg (fun p : Nat × List Nat => p.1 == j) a l h2]
      exact ih
    · rw [if_neg h]
      by_cases hj : (fun p : Nat × List Nat => p.1 == j) a = true
      · rw [find?_cons_pos (fun p : Nat × List Nat => p.1 == j) a _ hj,
          find?_cons_pos (fun p : Nat × List Nat => p.1 == j) a l hj]
      · rw [find?_cons_neg (fun p : Nat × List Nat => p.1 == j) a _ hj,
          find?_cons_neg (fun p : Nat × List Nat => p.1 == j) a l hj]
        exact ih

/-- After `roomsSet`, the key looks up exactly the stored room. -/
theorem find?_roomsSet_same (rooms : List (Nat × List Nat)) (i : Nat)
    (conns : List Nat) :
    (roomsSet rooms i conns).find? (fun p => p.1 == i) = some (i, conns) := by
  induction rooms with
  | nil =>
    unfold roomsSet
    simp
  | cons a rest ih =>
    by_cases h : (a.1 == i) = true
    · unfold roomsSet
      rw [if_pos (by simp [List.any_cons, h])]
      simp only [List.map_cons, h, if_true]
      exact find?_cons_pos (fun p : Nat × List Nat => p.1 == i) (i, conns) _
        (by simp)
    · rw [roomsSet_cons_ne a rest i conns h]
      rw [find?_cons_neg (fun p : Nat × List Nat => p.1 == i) a _ h]
      exact ih

/-- After `roomsSet` under key `i`, lookups of `j ≠ i` are unchanged. -/
theorem find?_roomsSet_other (rooms : List (Nat × List Nat)) (i j : Nat)
    (conns : List Nat) (hne : j ≠ i) :
    (roomsSet rooms i conns).find? (fun p => p.1 == j)
      = rooms.find? (fun p => p.1 == j) := by
  induction rooms with
  | nil =>
    unfold roomsSet
    simp only [List.any_nil, Bool.false_eq_true, if_false, List.nil_append]
    rw [find?_cons_neg (fun p : Nat × List Nat => p.1 == j) (i, conns) []
      (by simp only [beq_iff_eq]; exact fun hc => hne hc.symm)]
  | cons a rest ih =>
    by_cases h : (a.1 == i) = true
    · have hai : a.1 = i := by simpa [beq_iff_eq] using h
      unfold roomsSet
      rw [if_pos (by simp [List.any_cons, h])]
      simp only [List.map_cons, h, if_true]
      have h1 : ¬ (fun p : Nat × List Nat => p.1 == j) (i, conns) = true := by
        simp only [beq_iff_eq]
        exact fun hc => hne hc.symm
      have h2 : ¬ (fun p : Nat × List Nat => p.1 == j) a = true := by
        simp only [beq_iff_eq, hai]
        exact fun hc => hne hc.symm
      rw [find?_cons_neg (fun p : Nat × List Nat => p.1 == j) (i, conns) _ h1,
        find?_cons_neg (fun p : Nat × List Nat => p.1 == j) a rest h2]
      exact find?_key_map_replace rest i j conns hne
    · rw [roomsSet_cons_ne a rest i conns h]
      by_cases hj : (fun p : Nat × List Nat => p.1 == j) a = true
      · rw [find?_cons_pos (fun p : Nat × List Nat => p.1 == j) a _ hj,
          find?_cons_pos (fun p : Nat × List Nat => p.1 == j) a rest hj]
      · rw [find?_cons_neg (fun p : Nat × List Nat => p.1 == j) a _ hj,
          find?_cons_neg (fun p : Nat × List Nat => p.1 == j) a rest hj]
        exact ih

/-- Room content under the connected key. -/
theorem roomOf_connect_same (st : ChatState) (i ws : Nat) :
    roomOf (st.connect i ws) i
      = (if ws ∈ roomOf st i then roomOf st i else roomOf st i ++ [ws]) := by
  unfold ChatState.connect roomOf
  simp only
  rw [find?_roomsSet_same]
  rfl

/-- Rooms of other keys are untouched by a connect. -/
theorem roomOf_connect_other (st : ChatState) (i j ws : Nat) (hne : j ≠ i) :
    roomOf (st.connect i ws) j = roomOf st j := by
  unfold ChatState.connect roomOf
  simp only
  rw [find?_roomsSet_other _ _ _ _ hne]

/-- Disconnect erases the connection from its room (including the
room-pruning branch and the no-entry branch). -/
theorem roomOf_disconnect_same (st : ChatState) (i ws : Nat) :
    roomOf (st.disconnect i ws) i = (roomOf st i).erase ws := by
  unfold ChatState.disconnect
  by_cases hr : hasRoom st i = true
  · rw [if_pos hr]
    by_cases he : ((roomOf st i).erase ws).isEmpty = true
    · rw [if_pos he]
      have hempty : (roomOf st i).erase ws = [] := List.isEmpty_iff.mp he
      show roomOf { rooms := st.rooms.filter (fun p => p.1 != i) } i = _
      have hmain : roomOf { rooms := st.rooms.filter (fun p => p.1 != i) } i
          = [] := by
        unfold roomOf
        rw [find?_key_filter_ne_self st.rooms i]
        rfl
      rw [hmain, hempty]
    · rw [if_neg he]
      show roomOf
        { rooms := roomsSet st.rooms i ((roomOf st i).erase ws) } i = _
      unfold roomOf
      simp only
      rw [find?_roomsSet_same]
      rfl
  · rw [if_neg hr]
    have hnone : st.rooms.find? (fun p => p.1 == i) = none := by
      unfold hasRoom at hr
      exact Option.not_isSome_iff_eq_none.mp (by simpa using hr)
    unfold roomOf
    rw [hnone]
    rfl

/-- Disconnect under key `i` never touches the room of `j ≠ i`. -/
theorem roomOf_disconnect_other (st : ChatState) (i j ws : Nat)
    (hne : j ≠ i) :
    roomOf (st.disconnect i ws) j = roomOf st j := by
  unfold ChatState.disconnect
  by_cases hr : hasRoom st i = true
  · rw [if_pos hr]
    by_cases he : ((roomOf st i).erase ws).isEmpty = true
    · rw [if_pos he]
      show roomOf { rooms := st.rooms.filter (fun p => p.1 != i) } j = _
      unfold roomOf
      simp only
      rw [find?_key_filter_ne_other st.rooms i j hne]
    · rw [if_neg he]
      show roomOf
        { rooms := roomsSet st.rooms i ((roomOf st i).erase ws) } j = _
      unfold roomOf
      simp only
      rw [find?_roomsSet_other _ _ _ _ hne]
  · rw [if_neg hr]

/-- The delivery loop reports exactly the snapshotted connections whose
send does not raise. -/
theorem sendAll_delivered (i : Nat) (fails : Nat → Bool)
    (conns : List Nat) (st : ChatState) :
    (sendAll i fails conns st).2 = conns.filter (fun ws => !fails ws) := by
  induction conns generalizing st with
  | nil => rfl
  | cons ws rest ih =>
    by_cases h : fails ws = true
    · simp [sendAll, h, ih, List.filter_cons]
    · simp only [Bool.not_eq_true] at h
      simp [sendAll, h, ih, List.filter_cons]

/-- State evolution of the delivery loop on its own room. -/
theorem roomOf_sendAll_same (i : Nat) (fails : Nat → Bool)
    (conns : List Nat) (st : ChatState) :
    roomOf (sendAll i fails conns st).1 i
      = conns.foldl (fun r ws => if fails ws then r.erase ws else r)
          (roomOf st i) := by
  induction conns generalizing st with
  | nil => rfl
  | cons ws rest ih =>
    by_cases h : fails ws = true
    · simp only [sendAll, h, if_true, List.foldl_cons]
      rw [ih (st.disconnect i ws), roomOf_disconnect_same]
    · simp only [Bool.not_eq_true] at h
      simp only [sendAll, h, Bool.false_eq_true, if_false, List.foldl_cons]
      exact ih st

/-- The delivery loop on room `i` never touches the room of `j ≠ i`. -/
theorem roomOf_sendAll_other (i j : Nat) (fails : Nat → Bool)
    (conns : List Nat) (st : ChatState) (hne : j ≠ i) :
    roomOf (sendAll i fails conns st).1 j = roomOf st j := by
  induction conns generalizing st with
  | nil => rfl
  | cons ws rest ih =>
    by_cases h : fails ws = true
    · simp only [sendAll, h, if_true]
      rw [ih (st.disconnect i ws), roomOf_disconnect_other st i j ws hne]
    · simp only [Bool.not_eq_true] at h
      simp only [sendAll, h, Bool.false_eq_true, if_false]
      exact ih st

/-- Erasing the failing members of `todo` from a duplicate-free room is a
filter. -/
theorem foldl_erase_eq_filter (fails : Nat → Bool) :
    ∀ (todo room : List Nat), room.Nodup →
      todo.foldl (fun r ws => if fails ws then r.erase ws else r) room
        = room.filter (fun ws => !(fails ws && todo.contains ws)) := by
  intro todo
  induction todo with
  | nil =>
    intro room _
    simp
  | cons ws rest ih =>
    intro room hnd
    simp only [List.foldl_cons]
    by_cases h : fails ws = true
    · rw [if_pos h]
      rw [ih (room.erase ws) (List.Nodup.erase ws hnd)]
      rw [List.Nodup.erase_eq_filter hnd ws]
      rw [List.filter_filter]
      apply List.filter_congr
      intro x _
      by_cases hxw : x = ws
      · subst hxw
        simp [h]
      · simp [hxw, bne_iff_ne, Ne.symm]
    · rw [if_neg h]
      rw [ih room hnd]
      apply List.filter_congr
      intro x _
      by_cases hxw : x = ws
      · subst hxw
        rw [Bool.not_eq_true] at h
        simp [h]
      · simp [hxw, beq_iff_eq]

/-- Final room after a broadcast over a duplicate-free room: exactly the
failing members are gone. -/
theorem roomOf_broadcast_same (st : ChatState) (blog_id : Nat)
    (fails : Nat → Bool) (hnd : (roomOf st blog_id).Nodup) :
    roomOf (st.broadcast blog_id fails).1 blog_id
      = (roomOf st blog_id).filter (fun ws => !fails ws) := by
  show roomOf (sendAll blog_id fails (roomOf st blog_id) st).1 blog_id = _
  rw [roomOf_sendAll_same]
  rw [foldl_erase_eq_filter fails (roomOf st blog_id) (roomOf st blog_id) hnd]
  apply List.filter_congr
  intro x hx
  have hc : (roomOf st blog_id).contains x = true :=
    List.elem_eq_true_of_mem hx
  rw [hc]
  simp

/-- C4: broadcast snapshots the room first, delivers to every snapshotted
connection whose send does not raise, removes exactly the failing ones
from the room without touching other rooms, never propagates the failure,
and a subsequent broadcast no longer attempts the removed connections. -/
theorem broadcast_failure_isolation (st : ChatState) (blog_id : Nat)
    (fails : Nat → Bool) (hnd : (roomOf st blog_id).Nodup) :
    (st.broadcast blog_id fails).2.2 = roomOf st blog_id ∧
    (st.broadcast blog_id fails).2.1
        = (roomOf st blog_id).filter (fun ws => !fails ws) ∧
    roomOf (st.broadcast blog_id fails).1 blog_id
        = (roomOf st blog_id).filter (fun ws => !fails ws) ∧
    (∀ j, j ≠ blog_id →
      roomOf (st.broadcast blog_id fails).1 j = roomOf st j) ∧
    ((st.broadcast blog_id fails).1.broadcast blog_id fails).2.2
        = (roomOf st blog_id).filter (fun ws => !fails ws) := by
  refine ⟨rfl, ?_, ?_, ?_, ?_⟩
  · exact sendAll_delivered blog_id fails (roomOf st blog_id) st
  · exact roomOf_broadcast_same st blog_id fails hnd
  · intro j hj
    show roomOf (sendAll blog_id fails (roomOf st blog_id) st).1 j = _
    exact roomOf_sendAll_other blog_id j fails _ st hj
  · show roomOf (st.broadcast blog_id fails).1 blog_id = _
    exact roomOf_broadcast_same st blog_id fails hnd

/-- C4 witness: a three-member room in which connection 8 fails. -/
theorem broadcast_failure_isolation_witness :
    (ChatState.broadcast { rooms := [(1, [7, 8, 9])] } 1
        (fun ws => ws == 8)).2.2 = roomOf { rooms := [(1, [7, 8, 9])] } 1 ∧
    (ChatState.broadcast { rooms := [(1, [7, 8, 9])] } 1
        (fun ws => ws == 8)).2.1
      = (roomOf { rooms := [(1, [7, 8, 9])] } 1).filter
          (fun ws => !(ws == 8)) ∧
    roomOf (ChatState.broadcast { rooms := [(1, [7, 8, 9])] } 1
        (fun ws => ws == 8)).1 1
      = (roomOf { rooms := [(1, [7, 8, 9])] } 1).filter
          (fun ws => !(ws == 8)) ∧
    (∀ j, j ≠ 1 →
      roomOf (ChatState.broadcast { rooms := [(1, [7, 8, 9])] } 1
          (fun ws => ws == 8)).1 j
        = roomOf { rooms := [(1, [7, 8, 9])] } j) ∧
    ((ChatState.broadcast { rooms := [(1, [7, 8, 9])] } 1
        (fun ws => ws == 8)).1.broadcast 1 (fun ws => ws == 8)).2.2
      = (roomOf { rooms := [(1, [7, 8, 9])] } 1).filter
          (fun ws => !(ws == 8)) :=
  broadcast_failure_isolation { rooms := [(1, [7, 8, 9])] } 1
    (fun ws => ws == 8) (by decide)

/-- C2 counterexample: the websocket connect path never consults the
access policy: uBob (role USER, not the author) is admitted to the room
of uAlice's PENDING post, which the view policy hides from them. -/
theorem ws_connect_ignores_visibility :
    can_view_blog bPending (some uBob) = false ∧
    (blog_comments_ws_connect [uAlice, uBob] [bPending]
        { rooms := [] } 1 (some 4) 7).1 = WsConnect.accepted uBob ∧
    roomOf (blog_comments_ws_connect [uAlice, uBob] [bPending]
        { rooms := [] } 1 (some 4) 7).2 1 = [7] := by
  refine ⟨by decide, by decide, by decide⟩

/-- C2 amended: the connection is accepted — and the socket is added to
the post's room — iff the token resolves to an active user and the post
exists and is not soft-deleted; visibility under the access policy is not
checked. Every failing check refuses the connection and leaves the room
registry untouched. -/
theorem ws_connect_accept_characterization (users : List User)
    (db : List Blog) (st : ChatState) (blog_id : Nat)
    (token : Option Nat) (ws : Nat) :
    ((∃ u, (blog_comments_ws_connect users db st blog_id token ws).1
        = WsConnect.accepted u) ↔
      ((∃ u, get_user_from_token users token = some u) ∧
       (∃ b, db.find? (fun b => b.id == blog_id && b.deleted_at.isNone)
          = some b))) ∧
    ((blog_comments_ws_connect users db st blog_id token ws).1
        = WsConnect.refused →
      (blog_comments_ws_connect users db st blog_id token ws).2 = st) ∧
    (∀ u, get_user_from_token users token = some u →
      (∃ b, db.find? (fun b => b.id == blog_id && b.deleted_at.isNone)
         = some b) →
      (blog_comments_ws_connect users db st blog_id token ws).1
          = WsConnect.accepted u ∧
      (blog_comments_ws_connect users db st blog_id token ws).2
          = st.connect blog_id ws ∧
      ws ∈ roomOf (blog_comments_ws_connect users db st blog_id token
          ws).2 blog_id) := by
  unfold blog_comments_ws_connect
  cases hu : get_user_from_token users token with
  | none =>
    refine ⟨?_, fun _ => rfl, ?_⟩
    · constructor
      · rintro ⟨u, hc⟩
        cases hc
      · rintro ⟨⟨u, hc⟩, -⟩
        cases hc
    · intro u hc
      cases hc
  | some u =>
    cases hb : db.find? (fun b => b.id == blog_id && b.deleted_at.isNone) with
    | none =>
      refine ⟨?_, fun _ => rfl, ?_⟩
      · constructor
        · rintro ⟨u', hc⟩
          cases hc
        · rintro ⟨-, ⟨b, hc⟩⟩
          cases hc
      · rintro u' hu' ⟨b, hc⟩
        cases hc
    | some b =>
      refine ⟨?_, ?_, ?_⟩
      · constructor
        · intro _
          exact ⟨⟨u, rfl⟩, ⟨b, rfl⟩⟩
        · intro _
          exact ⟨u, rfl⟩
      · intro hc
        cases hc
      · rintro u' hu' -
        have huu : u' = u := by
          cases hu'
          rfl
        subst huu
        refine ⟨rfl, rfl, ?_⟩
        rw [roomOf_connect_same]
        by_cases hm : ws ∈ roomOf st blog_id
        · rw [if_pos hm]
          exact hm
        · rw [if_neg hm]
          exact List.mem_append_right _ (List.mem_singleton.mpr rfl)

/-- C2 amended witness: concrete acceptance of an authenticated user into
an existing post's room. -/
theorem ws_connect_accept_characterization_witness :
    ((∃ u, (blog_comments_ws_connect [uAlice, uBob] [bPending]
        { rooms := [] } 1 (some 4) 7).1 = WsConnect.accepted u) ↔
      ((∃ u, get_user_from_token [uAlice, uBob] (some 4) = some u) ∧
       (∃ b, [bPending].find?
          (fun b => b.id == 1 && b.deleted_at.isNone) = some b))) ∧
    ((blog_comments_ws_connect [uAlice, uBob] [bPending]
        { rooms := [] } 1 (some 4) 7).1 = WsConnect.refused →
      (blog_comments_ws_connect [uAlice, uBob] [bPending]
        { rooms := [] } 1 (some 4) 7).2 = { rooms := [] }) ∧
    (∀ u, get_user_from_token [uAlice, uBob] (some 4) = some u →
      (∃ b, [bPending].find?
         (fun b => b.id == 1 && b.deleted_at.isNone) = some b) →
      (blog_comments_ws_connect [uAlice, uBob] [bPending]
          { rooms := [] } 1 (some 4) 7).1 = WsConnect.accepted u ∧
      (blog_comments_ws_connect [uAlice, uBob] [bPending]
          { rooms := [] } 1 (some 4) 7).2
        = ChatState.connect { rooms := [] } 1 7 ∧
      7 ∈ roomOf (blog_comments_ws_connect [uAlice, uBob] [bPending]
          { rooms := [] } 1 (some 4) 7).2 1) :=
  ws_connect_accept_characterization [uAlice, uBob] [bPending]
    { rooms := [] } 1 (some 4) 7

/-- C5: non-comment frames are ignored with no state change; a comment
frame is trimmed and dropped silently when empty; otherwise exactly one
comment row (this post, the connected actor, the trimmed content, the
current time) is appended to the table, and the broadcast frames sent to
the post's room carry that row's assigned id and timestamp. -/
theorem comment_frame_persist_then_broadcast (sess : WsSession)
    (blog_id : Nat) (user : User) (now : Nat) (fails : Nat → Bool)
    (type : String) (content : Option String) :
    (type ≠ "comment" →
      handle_frame sess blog_id user now fails (InFrame.parsed type content)
        = (sess, [])) ∧
    ((content.getD "").trim = "" →
      handle_frame sess blog_id user now fails
        (InFrame.parsed "comment" content) = (sess, [])) ∧
    ((content.getD "").trim ≠ "" →
      (handle_frame sess blog_id user now fails
          (InFrame.parsed "comment" content)).1.comments
        = sess.comments ++
          [{ id := sess.nextCommentId, content := (content.getD "").trim,
             blog_id := blog_id, user_id := user.id, created_at := now }] ∧
      (handle_frame sess blog_id user now fails
          (InFrame.parsed "comment" content)).1.nextCommentId
        = sess.nextCommentId + 1 ∧
      (handle_frame sess blog_id user now fails
          (InFrame.parsed "comment" content)).2
        = ((roomOf sess.chat blog_id).filter (fun ws => !fails ws)).map
            (fun ws => (ws,
              { blog_id := blog_id, comment_id := sess.nextCommentId,
                content := (content.getD "").trim, user_id := user.id,
                username := user.username, created_at := now }))) := by
  refine ⟨?_, ?_, ?_⟩
  · intro h
    show (if (type == "comment") = true then _ else (sess, [])) = (sess, [])
    rw [if_neg (by simp only [beq_iff_eq]; exact h)]
  · intro h
    show (if ("comment" == "comment") = true then _ else (sess, []))
      = (sess, [])
    rw [if_pos (by simp)]
    show (if (((content.getD "").trim == "") = true) then (sess, []) else _)
      = (sess, [])
    rw [if_pos (by simp only [beq_iff_eq]; exact h)]
  · intro h
    have hred : handle_frame sess blog_id user now fails
        (InFrame.parsed "comment" content)
      = (⟨sess.comments ++ [⟨sess.nextCommentId, (content.getD "").trim, blog_id, user.id, now⟩], sess.nextCommentId + 1, (sess.chat.broadcast blog_id fails).1⟩,
         (sess.chat.broadcast blog_id fails).2.1.map (fun ws => (ws, ⟨blog_id, sess.nextCommentId, (content.getD "").trim, user.id, user.username, now⟩))) := by
      show (if ("comment" == "comment") = true then _ else (sess, [])) = _
      rw [if_pos (by simp)]
      show (if (((content.getD "").trim == "") = true) then (sess, []) else _)
        = _
      rw [if_neg (by simp only [beq_iff_eq]; exact h)]
    rw [hred]
    refine ⟨rfl, rfl, ?_⟩
    have hd : (sess.chat.broadcast blog_id fails).2.1
        = (roomOf sess.chat blog_id).filter (fun ws => !fails ws) :=
      sendAll_delivered blog_id fails (roomOf sess.chat blog_id) sess.chat
    show (sess.chat.broadcast blog_id fails).2.1.map _ = _
    rw [hd]

/-- A concrete websocket session fixture: empty comments table, comment
id sequence at 5, one room for post 1 holding connections 7 and 8. -/
def sessEx : WsSession :=
  { comments := [], nextCommentId := 5, chat := { rooms := [(1, [7, 8])] } }

/-- C5 witness: a concrete comment frame with padded content in a
two-member room, plus a concrete ignored frame and the empty-drop case. -/
theorem comment_frame_persist_then_broadcast_witness :
    ("typing" ≠ "comment" →
      handle_frame sessEx 1 uBob 30 (fun _ => false)
        (InFrame.parsed "typing" (some " hello ")) = (sessEx, [])) ∧
    (((some " hello " : Option String).getD "").trim = "" →
      handle_frame sessEx 1 uBob 30 (fun _ => false)
        (InFrame.parsed "comment" (some " hello ")) = (sessEx, [])) ∧
    (((some " hello " : Option String).getD "").trim ≠ "" →
      (handle_frame sessEx 1 uBob 30 (fun _ => false)
          (InFrame.parsed "comment" (some " hello "))).1.comments
        = sessEx.comments ++
          [{ id := sessEx.nextCommentId,
             content := ((some " hello " : Option String).getD "").trim,
             blog_id := 1, user_id := uBob.id, created_at := 30 }] ∧
      (handle_frame sessEx 1 uBob 30 (fun _ => false)
          (InFrame.parsed "comment" (some " hello "))).1.nextCommentId
        = sessEx.nextCommentId + 1 ∧
      (handle_frame sessEx 1 uBob 30 (fun _ => false)
          (InFrame.parsed "comment" (some " hello "))).2
        = ((roomOf sessEx.chat 1).filter
            (fun ws => !(fun _ : Nat => false) ws)).map
            (fun ws => (ws,
              { blog_id := 1, comment_id := sessEx.nextCommentId,
                content := ((some " hello " : Option String).getD "").trim,
                user_id := uBob.id, username := uBob.username,
                created_at := 30 }))) :=
  comment_frame_persist_then_broadcast sessEx 1 uBob 30 (fun _ => false)
    "typing" (some " hello ")

/-- C10: a frame that is not valid JSON is silently discarded — no
comment persisted, nothing broadcast, the room membership untouched — and
the loop continues with the remaining frames as if the bad frame had not
arrived. -/
theorem invalid_json_ignored (sess : WsSession) (blog_id : Nat)
    (user : User) (now : Nat) (fails : Nat → Bool) (raw : String)
    (rest : List InFrame) :
    handle_frame sess blog_id user now fails (InFrame.malformed raw)
      = (sess, []) ∧
    roomOf (handle_frame sess blog_id user now fails
        (InFrame.malformed raw)).1.chat blog_id = roomOf sess.chat blog_id ∧
    run_frames sess blog_id user now fails (InFrame.malformed raw :: rest)
      = run_frames sess blog_id user now fails rest := by
  refine ⟨rfl, rfl, ?_⟩
  simp [run_frames, handle_frame]

/-! ## Lemmas about the notification fan-out registry -/

/-- Appending an event to every mailbox commutes with the key lookup. -/
theorem find?_key_map_append_event (clients : List (Nat × List NotifEvent))
    (cid : Nat) (e : NotifEvent) :
    (clients.map (fun p => (p.1, p.2 ++ [e]))).find? (fun p => p.1 == cid)
      = (clients.find? (fun p => p.1 == cid)).map
          (fun p => (p.1, p.2 ++ [e])) := by
  induction clients with
  | nil => rfl
  | cons a rest ih =>
    simp only [List.map_cons]
    by_cases h : (a.1 == cid) = true
    · rw [find?_cons_pos (fun p : Nat × List NotifEvent => p.1 == cid)
        (a.1, a.2 ++ [e]) _ h,
        find?_cons_pos (fun p : Nat × List NotifEvent => p.1 == cid)
        a rest h]
      rfl
    · rw [find?_cons_neg (fun p : Nat × List NotifEvent => p.1 == cid)
        (a.1, a.2 ++ [e]) _ h,
        find?_cons_neg (fun p : Nat × List NotifEvent => p.1 == cid)
        a rest h]
      exact ih

/-- The client map after a publish: the event is appended to every
registered mailbox (also vacuously when none is registered). -/
theorem notify_clients (st : NotifState) (blog : Blog) :
    (notify_new_pending_blog st blog).clients
      = st.clients.map (fun p =>
          (p.1, p.2 ++ [⟨blog.id, blog.title, blog.author_id⟩])) := by
  unfold notify_new_pending_blog
  by_cases h : st.clients.isEmpty = true
  · rw [if_pos h]
    have hnil : st.clients = [] := List.isEmpty_iff.mp h
    rw [hnil]
    rfl
  · rw [if_neg h]

/-- Publishing never changes the client-id sequence. -/
theorem notify_nextClientId (st : NotifState) (blog : Blog) :
    (notify_new_pending_blog st blog).nextClientId = st.nextClientId := by
  unfold notify_new_pending_blog
  by_cases h : st.clients.isEmpty = true
  · rw [if_pos h]
  · rw [if_neg h]

/-- Mailbox content after a publish. -/
theorem mailboxOf_notify (st : NotifState) (blog : Blog) (cid : Nat) :
    mailboxOf (notify_new_pending_blog st blog) cid
      = (mailboxOf st cid).map
          (fun q => q ++ [⟨blog.id, blog.title, blog.author_id⟩]) := by
  unfold mailboxOf
  rw [notify_clients, find?_key_map_append_event]
  cases st.clients.find? (fun p => p.1 == cid) <;> rfl

/-- A key larger than every registered key misses. -/
theorem find?_none_of_keys_lt (clients : List (Nat × List NotifEvent))
    (n : Nat) (h : ∀ p ∈ clients, p.1 < n) :
    clients.find? (fun p => p.1 == n) = none := by
  induction clients with
  | nil => rfl
  | cons a rest ih =>
    have ha : ¬ (fun p : Nat × List NotifEvent => p.1 == n) a = true := by
      simp only [beq_iff_eq]
      exact Nat.ne_of_lt (h a (List.mem_cons_self a rest))
    rw [find?_cons_neg (fun p : Nat × List NotifEvent => p.1 == n) a rest ha]
    exact ih (fun p hp => h p (List.mem_cons_of_mem a hp))

/-- C8: publish delivers to exactly the mailboxes registered at the
moment of publishing: with no subscriber it returns with the registry
untouched, every registered mailbox gets the event appended, a mailbox
registered after the publish starts empty (no replay), and two successive
publishes arrive in each registered mailbox in publish order. -/
theorem publish_fanout_properties (st : NotifState) (blog blog2 : Blog)
    (hWF : st.WF) :
    (st.clients = [] → notify_new_pending_blog st blog = st) ∧
    (∀ cid q, mailboxOf st cid = some q →
      mailboxOf (notify_new_pending_blog st blog) cid
        = some (q ++ [⟨blog.id, blog.title, blog.author_id⟩])) ∧
    (mailboxOf ((notify_new_pending_blog st blog).connect).2
        ((notify_new_pending_blog st blog).connect).1 = some []) ∧
    (∀ cid q, mailboxOf st cid = some q →
      mailboxOf (notify_new_pending_blog
          (notify_new_pending_blog st blog) blog2) cid
        = some (q ++ [⟨blog.id, blog.title, blog.author_id⟩]
            ++ [⟨blog2.id, blog2.title, blog2.author_id⟩])) := by
  refine ⟨?_, ?_, ?_, ?_⟩
  · intro h
    unfold notify_new_pending_blog
    rw [if_pos (by rw [List.isEmpty_iff]; exact h)]
  · intro cid q h
    rw [mailboxOf_notify, h]
    rfl
  · have hkeys : ∀ p ∈ (notify_new_pending_blog st blog).clients,
        p.1 < st.nextClientId := by
      rw [notify_clients]
      intro p hp
      obtain ⟨a, ha, rfl⟩ := List.mem_map.mp hp
      exact hWF a ha
    unfold NotifState.connect mailboxOf
    simp only [notify_nextClientId]
    rw [List.find?_append]
    rw [find?_none_of_keys_lt _ _ hkeys]
    rw [Option.none_or]
    rw [find?_cons_pos (fun p : Nat × List NotifEvent
      => p.1 == st.nextClientId) (st.nextClientId, []) [] (by simp)]
    rfl
  · intro cid q h
    rw [mailboxOf_notify, mailboxOf_notify, h]
    rfl

/-- C8 witness: one registered subscriber, two concrete publishes. -/
theorem publish_fanout_properties_witness :
    (({ clients := [(0, [])], nextClientId := 1 } : NotifState).clients = []
      → notify_new_pending_blog
          { clients := [(0, [])], nextClientId := 1 } bPending
        = { clients := [(0, [])], nextClientId := 1 }) ∧
    (∀ cid q, mailboxOf { clients := [(0, [])], nextClientId := 1 } cid
        = some q →
      mailboxOf (notify_new_pending_blog
          { clients := [(0, [])], nextClientId := 1 } bPending) cid
        = some (q ++ [⟨bPending.id, bPending.title, bPending.author_id⟩])) ∧
    (mailboxOf ((notify_new_pending_blog
        { clients := [(0, [])], nextClientId := 1 } bPending).connect).2
        ((notify_new_pending_blog
        { clients := [(0, [])], nextClientId := 1 } bPending).connect).1
      = some []) ∧
    (∀ cid q, mailboxOf { clients := [(0, [])], nextClientId := 1 } cid
        = some q →
      mailboxOf (notify_new_pending_blog (notify_new_pending_blog
          { clients := [(0, [])], nextClientId := 1 } bPending) bApproved)
          cid
        = some (q ++ [⟨bPending.id, bPending.title, bPending.author_id⟩]
            ++ [⟨bApproved.id, bApproved.title, bApproved.author_id⟩])) :=
  publish_fanout_properties { clients := [(0, [])], nextClientId := 1 }
    bPending bApproved (by intro p hp; simp at hp; simp [hp])

/-- C3 counterexample: the SSE route is guarded by `require_admin`, so an
active L1 approver is rejected with 403 — the claim grants approvers
access, the code does not. -/
theorem sse_rejects_approver :
    uApprover.role = UserRole.l1_approver ∧
    notifications_sse { clients := [], nextClientId := 0 } uApprover
      = (Except.error ApiError.forbidden,
         { clients := [], nextClientId := 0 }) := by
  exact ⟨rfl, rfl⟩

/-- C3 amended: subscribing to the event stream succeeds exactly when the
actor's role is ADMIN; USER and L1_APPROVER actors are rejected with an
authorization error before any mailbox is registered. A successful
subscription registers a fresh empty mailbox. -/
theorem sse_admin_only (st : NotifState) (u : User) :
    (u.role = UserRole.admin →
      notifications_sse st u = (Except.ok st.nextClientId,
        { clients := st.clients ++ [(st.nextClientId, [])], nextClientId := st.nextClientId + 1 })) ∧
    (u.role ≠ UserRole.admin →
      notifications_sse st u = (Except.error ApiError.forbidden, st)) := by
  constructor
  · intro h
    unfold notifications_sse require_admin
    rw [if_pos (by simp [beq_iff_eq, h])]
    rfl
  · intro h
    unfold notifications_sse require_admin
    rw [if_neg (by simp only [beq_iff_eq]; exact h)]

/-- C3 amended witness: the admin succeeds, and by the counterexample
instance the approver is refused. -/
theorem sse_admin_only_witness :
    (uAdmin.role = UserRole.admin →
      notifications_sse { clients := [], nextClientId := 0 } uAdmin
        = (Except.ok 0,
           { clients := [] ++ [(0, [])], nextClientId := 0 + 1 })) ∧
    (uAdmin.role ≠ UserRole.admin →
      notifications_sse { clients := [], nextClientId := 0 } uAdmin
        = (Except.error ApiError.forbidden,
           { clients := [], nextClientId := 0 })) :=
  sse_admin_only { clients := [], nextClientId := 0 } uAdmin

end BlogApp
